import Mathlib

/-!
# Verification of the Riverside service-worker caching engine

A shallow embedding of the service worker (request classification and
routing, range slicing of cached media, cache/record-store trimming with
pin exemption, and the per-strategy offline fallbacks), with theorems
checking the specified properties against the code.

Conventions of the embedding:
* A JS string is a Lean `String`; substring / suffix tests are spelled out
  over `List Char` so they evaluate in the kernel.
* A response body is a `List Nat` of bytes; a JS `Response` is `Resp`
  (status, header list, body).  `Response`'s default status is 200.
* `CacheStorage` is an insertion-ordered association list keyed by URL;
  `Cache.put` on an existing key deletes the old entry and appends
  (the Cache API ordering).  The IDB pin store is an association list
  from URL to timestamp; the IDB api store is a list of records.
* Background (`event.waitUntil`) work is modelled as having run to
  completion: each branch returns both its response and the store state
  after the detached writes.
-/

/-- `charsHasPrefix hay needle`: `needle` is a prefix of `hay`. -/
def charsHasPrefix : List Char → List Char → Bool
  | _, [] => true
  | [], _ => false
  | c :: cs, d :: ds => c == d && charsHasPrefix cs ds

/-- `charsIncludes hay needle`: `needle` occurs somewhere inside `hay`
(JS `String.prototype.includes`). -/
def charsIncludes : List Char → List Char → Bool
  | [], needle => needle.isEmpty
  | c :: cs, needle => charsHasPrefix (c :: cs) needle || charsIncludes cs needle

/-- JS `s.includes(t)`. -/
def strIncludes (s t : String) : Bool := charsIncludes s.data t.data

/-- JS `s.endsWith(t)`. -/
def strEndsWith (s t : String) : Bool := charsHasPrefix s.data.reverse t.data.reverse

/-- Lower-case every character (for the case-insensitive media-extension
regex and for header-name lookup). -/
def strToLower (s : String) : String := ⟨s.data.map Char.toLower⟩

/-- The request descriptor: the fields of a fetch-event `Request` that the
service worker reads.  `accept` is `req.headers.get("accept") || ""` and
`range` is `req.headers.get("range")`. -/
structure Request where
  method : String
  mode : String
  destination : String
  url : String
  pathname : String
  origin : String
  accept : String
  range : Option String
deriving DecidableEq

/-- A response: status, headers, body bytes. -/
structure Resp where
  status : Nat
  headers : List (String × String)
  body : List Nat
deriving DecidableEq

/-- JS `Response.ok`: status in the inclusive range 200–299. -/
def respOk (r : Resp) : Bool := decide (200 ≤ r.status ∧ r.status ≤ 299)

/-- JS `Headers.get` (case-insensitive name lookup). -/
def headerGet (hs : List (String × String)) (name : String) : Option String :=
  (hs.find? (fun h => strToLower h.1 == strToLower name)).map Prod.snd

/-- Source `isAPIRequest(req, url)`: accept header contains
"application/json", or the pathname contains "/api/", or the pathname ends
in ".json". -/
def isAPIRequest (req : Request) : Bool :=
  strIncludes req.accept "application/json"
    || strIncludes req.pathname "/api/"
    || strEndsWith req.pathname ".json"

/-- Source `isStaticAsset(req)`: destination script/style/image/font, or
the full URL ends in ".json". -/
def isStaticAsset (req : Request) : Bool :=
  req.destination == "script"
    || req.destination == "style"
    || req.destination == "image"
    || req.destination == "font"
    || strEndsWith req.url ".json"

/-- Source `isVideoRequest(req, url)`: destination "video" or the pathname
matches `/\.(mp4|webm|ogg|m3u8)$/i`. -/
def isVideoRequest (req : Request) : Bool :=
  req.destination == "video"
    || (let p := strToLower req.pathname
        strEndsWith p ".mp4" || strEndsWith p ".webm"
          || strEndsWith p ".ogg" || strEndsWith p ".m3u8")

/-- The fetch handler's navigation test:
`req.mode === "navigate" || req.destination === "document"`. -/
def isNavigationRequest (req : Request) : Bool :=
  req.mode == "navigate" || req.destination == "document"

/-- Which strategy of the fetch handler serves a request. -/
inductive Strategy where
  | navigation
  | media
  | staticAsset
  | api
  | passthrough
deriving DecidableEq

/-- The dispatch order of the fetch handler's `respondWith` body (for GET
requests): navigation, then video, then static-asset / same-origin, then
API, then the passthrough tail.  `loc` is `location.origin`. -/
def routeOf (loc : String) (req : Request) : Strategy :=
  if isNavigationRequest req then .navigation
  else if isVideoRequest req then .media
  else if isStaticAsset req || req.origin == loc then .staticAsset
  else if isAPIRequest req then .api
  else .passthrough

/-- A same-origin GET for `/api/items` with a JSON accept header and no
destination hint: by the spec's classification order it should be
structured-data, the code's branch order sends it to the static branch. -/
def c1Req : Request :=
  { method := "GET", mode := "", destination := ""
    url := "https://example.com/api/items", pathname := "/api/items"
    origin := "https://example.com", accept := "application/json"
    range := none }

/-- A cross-origin GET for `/api/items` with a JSON accept header: this
one does reach the API branch. -/
def c1ApiReq : Request :=
  { method := "GET", mode := "", destination := ""
    url := "https://api.other.com/api/items", pathname := "/api/items"
    origin := "https://api.other.com", accept := "application/json"
    range := none }

/-- C1 (counterexample): a GET request that is neither navigation nor
media, whose accept header contains a JSON media type AND whose path
contains the reserved API segment, is nevertheless routed to the
static-asset branch, not the structured-data branch, because the code
evaluates the static-asset/same-origin check first. -/
theorem c1_counterexample :
    c1Req.method = "GET"
      ∧ isNavigationRequest c1Req = false
      ∧ isVideoRequest c1Req = false
      ∧ isAPIRequest c1Req = true
      ∧ routeOf "https://example.com" c1Req = Strategy.staticAsset
      ∧ routeOf "https://example.com" c1Req ≠ Strategy.api := by
  decide

/-- C1 (amended): for a GET request that is neither navigation- nor
media-classified, the static-asset/same-origin check is evaluated before
the structured-data check, so the request is handled by the
structured-data strategy iff it satisfies the API predicate AND is not a
static asset AND is not same-origin. -/
theorem c1_amended (loc : String) (req : Request)
    (_hm : req.method = "GET")
    (hnav : isNavigationRequest req = false)
    (hmedia : isVideoRequest req = false) :
    routeOf loc req = Strategy.api ↔
      (isAPIRequest req = true ∧ isStaticAsset req = false ∧ req.origin ≠ loc) := by
  unfold routeOf
  rw [hnav, hmedia]
  simp only [Bool.false_eq_true, if_false]
  by_cases hs : isStaticAsset req
  · simp [hs]
  · by_cases ho : req.origin = loc
    · simp [hs, ho]
    · by_cases ha : isAPIRequest req
      · simp [hs, ho, ha]
      · simp [hs, ho, ha]

/-- C1 (witness for the amended theorem): the cross-origin JSON request is
routed to the API branch. -/
theorem c1_amended_witness :
    routeOf "https://example.com" c1ApiReq = Strategy.api :=
  (c1_amended "https://example.com" c1ApiReq (by decide) (by decide)
    (by decide)).mpr (by decide)

/-! ## The range slicer (`serveRangeFromFullResponse`) -/

/-- Split off the leading run of ASCII digits. -/
def takeDigits : List Char → List Char × List Char
  | [] => ([], [])
  | c :: cs =>
    if c.isDigit then
      let p := takeDigits cs
      (c :: p.1, p.2)
    else ([], c :: cs)

/-- Decimal value of a digit run. -/
def digitsToNat (ds : List Char) : Nat :=
  ds.foldl (fun n c => n * 10 + (c.toNat - 48)) 0

/-- Try to match `bytes=(\d+)-(\d+)?` at this exact position. -/
def tryMatchAt (cs : List Char) : Option (Nat × Option Nat) :=
  if charsHasPrefix cs "bytes=".data then
    let rest := cs.drop 6
    let p := takeDigits rest
    if p.1.isEmpty then none
    else
      match p.2 with
      | '-' :: rest2 =>
        let q := takeDigits rest2
        some (digitsToNat p.1, if q.1.isEmpty then none else some (digitsToNat q.1))
      | _ => none
  else none

/-- Leftmost match of the unanchored regex `/bytes=(\d+)-(\d+)?/` (the
`exec` in the source): try each start position left to right. -/
def execRangeRegex : List Char → Option (Nat × Option Nat)
  | [] => none
  | c :: cs => (tryMatchAt (c :: cs)).orElse (fun _ => execRangeRegex cs)

/-- Parse a range header the way the source's regex does, yielding
`(start, optional end)`. -/
def parseRange (h : String) : Option (Nat × Option Nat) :=
  execRangeRegex h.data

/-- The source's `realEnd`:
`(typeof end === 'number' && end < size) ? end : size - 1`, computed over
`Int` because JS `size - 1` may be `-1`. -/
def realEndOf (size : Nat) (endOpt : Option Nat) : Int :=
  match endOpt with
  | some e => if e < size then (e : Int) else (size : Int) - 1
  | none => (size : Int) - 1

/-- JS `x || d` for an optional header value: both `null` (absent) and
the empty string are falsy, so both fall back to the default. -/
def strOrDefault (x : Option String) (d : String) : String :=
  match x with
  | none => d
  | some s => if s = "" then d else s

/-- JS truthiness of a header value (`if (req.headers.get('range'))`):
`null` and `""` are falsy. -/
def headerTruthy : Option String → Bool
  | none => false
  | some s => !(decide (s = ""))

/-- Source `serveRangeFromFullResponse(fullResponse, request)`: serve a
byte range from a cached full response.  Cloning a response is the
identity on the modelled value.  `if (!rangeHeader)` — an absent header
(`null`) and an empty header string are both falsy, and both return the
full payload. -/
def serveRangeFromFullResponse (fullResponse : Resp) (request : Request) : Resp :=
  match request.range with
  | none => fullResponse
  | some rangeHeader =>
    if rangeHeader = "" then fullResponse
    else
      match parseRange rangeHeader with
      | none => { status := 416, headers := [], body := [] }
      | some (start, endOpt) =>
        let size := fullResponse.body.length
        let realEnd := realEndOf size endOpt
        if start ≥ size ∨ (start : Int) > realEnd then
          { status := 416
            headers := [("Content-Range", "bytes */" ++ toString size)]
            body := [] }
        else
          let chunk := (fullResponse.body.drop start).take (realEnd.toNat + 1 - start)
          { status := 206
            headers :=
              [("Content-Range",
                  "bytes " ++ toString start ++ "-" ++ toString realEnd.toNat
                    ++ "/" ++ toString size),
               ("Accept-Ranges", "bytes"),
               ("Content-Length", toString chunk.length),
               ("Content-Type",
                  strOrDefault (headerGet fullResponse.headers "Content-Type")
                    "video/mp4")]
            body := chunk }

/-- Unfolding lemma: the satisfiable-range case of the slicer. -/
theorem serveRange_sat (p : Resp) (req : Request) (hdr : String) (s : Nat)
    (e : Option Nat) (hr : req.range = some hdr)
    (hp : parseRange hdr = some (s, e))
    (hs : s < p.body.length) (he : (s : Int) ≤ realEndOf p.body.length e) :
    serveRangeFromFullResponse p req =
      { status := 206
        headers :=
          [("Content-Range",
              "bytes " ++ toString s ++ "-" ++ toString (realEndOf p.body.length e).toNat
                ++ "/" ++ toString p.body.length),
           ("Accept-Ranges", "bytes"),
           ("Content-Length",
              toString ((p.body.drop s).take ((realEndOf p.body.length e).toNat + 1 - s)).length),
           ("Content-Type",
              strOrDefault (headerGet p.headers "Content-Type") "video/mp4")]
        body := (p.body.drop s).take ((realEndOf p.body.length e).toNat + 1 - s) } := by
  have hne : hdr ≠ "" := by
    intro heq
    rw [heq] at hp
    have hnone : (none : Option (Nat × Option Nat)) = some (s, e) := hp
    exact Option.noConfusion hnone
  unfold serveRangeFromFullResponse
  simp only [hr]
  rw [if_neg hne]
  simp only [hp]
  rw [if_neg]
  push_neg
  exact ⟨hs, he⟩

/-- Unfolding lemma: the unsatisfiable-range case of the slicer. -/
theorem serveRange_unsat (p : Resp) (req : Request) (hdr : String) (s : Nat)
    (e : Option Nat) (hr : req.range = some hdr)
    (hp : parseRange hdr = some (s, e))
    (h : p.body.length ≤ s ∨ realEndOf p.body.length e < (s : Int)) :
    serveRangeFromFullResponse p req =
      { status := 416
        headers := [("Content-Range", "bytes */" ++ toString p.body.length)]
        body := [] } := by
  have hne : hdr ≠ "" := by
    intro heq
    rw [heq] at hp
    have hnone : (none : Option (Nat × Option Nat)) = some (s, e) := hp
    exact Option.noConfusion hnone
  unfold serveRangeFromFullResponse
  simp only [hr]
  rw [if_neg hne]
  simp only [hp]
  rw [if_pos]
  rcases h with h | h
  · exact Or.inl h
  · exact Or.inr h

/-- The code's `realEnd` agrees with `min(requested end, size − 1)`. -/
theorem realEndOf_eq_min (size e : Nat) :
    realEndOf size (some e) = min (e : Int) ((size : Int) - 1) := by
  have h : realEndOf size (some e)
      = if e < size then (e : Int) else (size : Int) - 1 := rfl
  rw [h]
  split
  · omega
  · omega

/-- A media request carrying the given range header (only the `range`
field is read by the slicer). -/
def mkRangeReq (r : Option String) : Request :=
  { method := "GET", mode := "", destination := "video"
    url := "https://example.com/v/a.mp4", pathname := "/v/a.mp4"
    origin := "https://example.com", accept := "", range := r }

/-- C3: range correctness of the slicer.  For a stored payload of size N:
`bytes=0-99` (when N ≥ 100) yields 206 with exactly the 100 first bytes
and Content-Range `bytes 0-99/N`; any range whose start equals N is
unsatisfiable; `bytes=10-` (when N > 10) yields bytes 10..N−1 with the
matching Content-Range; and in general a satisfiable bounded range is
served with effective end min(requested end, N−1), the inclusive slice as
body, and Content-Length equal to the slice length. -/
theorem c3_range_correctness (p : Resp) :
    (∀ req : Request, req.range = some "bytes=0-99" → 100 ≤ p.body.length →
      (serveRangeFromFullResponse p req).status = 206
        ∧ (serveRangeFromFullResponse p req).body = p.body.take 100
        ∧ (serveRangeFromFullResponse p req).body.length = 100
        ∧ headerGet (serveRangeFromFullResponse p req).headers "Content-Range"
            = some ("bytes 0-99/" ++ toString p.body.length))
    ∧ (∀ (req : Request) (hdr : String) (s : Nat) (e : Option Nat),
        req.range = some hdr → parseRange hdr = some (s, e) →
        s = p.body.length →
        (serveRangeFromFullResponse p req).status = 416)
    ∧ (∀ req : Request, req.range = some "bytes=10-" → 10 < p.body.length →
      (serveRangeFromFullResponse p req).status = 206
        ∧ (serveRangeFromFullResponse p req).body = p.body.drop 10
        ∧ headerGet (serveRangeFromFullResponse p req).headers "Content-Range"
            = some ("bytes 10-" ++ toString (p.body.length - 1)
                ++ "/" ++ toString p.body.length))
    ∧ (∀ (req : Request) (hdr : String) (s e : Nat),
        req.range = some hdr → parseRange hdr = some (s, some e) →
        s < p.body.length →
        (s : Int) ≤ min (e : Int) ((p.body.length : Int) - 1) →
        realEndOf p.body.length (some e) = min (e : Int) ((p.body.length : Int) - 1)
          ∧ (serveRangeFromFullResponse p req).status = 206
          ∧ (serveRangeFromFullResponse p req).body
              = (p.body.drop s).take
                  ((min (e : Int) ((p.body.length : Int) - 1)).toNat + 1 - s)
          ∧ (serveRangeFromFullResponse p req).body.length
              = (min (e : Int) ((p.body.length : Int) - 1)).toNat + 1 - s
          ∧ headerGet (serveRangeFromFullResponse p req).headers "Content-Length"
              = some (toString ((serveRangeFromFullResponse p req).body.length))) := by
  refine ⟨?_, ?_, ?_, ?_⟩
  · intro req hr hN
    have hp : parseRange "bytes=0-99" = some (0, some 99) := by decide
    have hre : realEndOf p.body.length (some 99) = (99 : Int) := by
      have h99 : (99 : Nat) < p.body.length := by omega
      simp [realEndOf, h99]
    have hmain := serveRange_sat p req "bytes=0-99" 0 (some 99) hr hp
      (by omega) (by rw [hre]; omega)
    rw [hre] at hmain
    rw [hmain]
    refine ⟨rfl, ?_, ?_, ?_⟩
    · show (p.body.drop 0).take ((99 : Int).toNat + 1 - 0) = p.body.take 100
      simp
    · show ((p.body.drop 0).take ((99 : Int).toNat + 1 - 0)).length = 100
      simp
      omega
    · rfl
  · intro req hdr s e hr hp hs
    rw [serveRange_unsat p req hdr s e hr hp (Or.inl (le_of_eq hs.symm))]
  · intro req hr hN
    have hp : parseRange "bytes=10-" = some (10, none) := by decide
    have hre : realEndOf p.body.length none = (p.body.length : Int) - 1 := rfl
    have htn : ((p.body.length : Int) - 1).toNat = p.body.length - 1 := by omega
    have hmain := serveRange_sat p req "bytes=10-" 10 none hr hp
      (by omega) (by rw [hre]; omega)
    rw [hre, htn] at hmain
    rw [hmain]
    refine ⟨rfl, ?_, ?_⟩
    · show (p.body.drop 10).take (p.body.length - 1 + 1 - 10) = p.body.drop 10
      have hl : (p.body.drop 10).length = p.body.length - 10 := by
        simp
      rw [show p.body.length - 1 + 1 - 10 = p.body.length - 10 by omega, ← hl,
        List.take_length]
    · rfl
  · intro req hdr s e hr hp hs he
    have hmin := realEndOf_eq_min p.body.length e
    have hmain := serveRange_sat p req hdr s (some e) hr hp hs (by rw [hmin]; exact he)
    rw [hmin] at hmain
    rw [hmain]
    refine ⟨hmin, rfl, rfl, ?_, rfl⟩
    show ((p.body.drop s).take
        ((min (e : Int) ((p.body.length : Int) - 1)).toNat + 1 - s)).length = _
    have hb : (min (e : Int) ((p.body.length : Int) - 1)).toNat ≤ p.body.length - 1 := by
      omega
    simp
    omega

/-- The payload used to witness the range-correctness theorem: 120 bytes. -/
def p120 : Resp :=
  { status := 200, headers := [("Content-Type", "video/mp4")]
    body := List.replicate 120 7 }

/-- C3 (witness): the range-correctness theorem applied to a concrete
120-byte payload with ranges `bytes=0-99`, `bytes=120-`, `bytes=10-` and
`bytes=30-49`. -/
theorem c3_range_correctness_witness :
    ((serveRangeFromFullResponse p120 (mkRangeReq (some "bytes=0-99"))).status = 206
      ∧ (serveRangeFromFullResponse p120 (mkRangeReq (some "bytes=0-99"))).body
          = p120.body.take 100
      ∧ (serveRangeFromFullResponse p120 (mkRangeReq (some "bytes=0-99"))).body.length = 100
      ∧ headerGet (serveRangeFromFullResponse p120
          (mkRangeReq (some "bytes=0-99"))).headers "Content-Range"
          = some ("bytes 0-99/" ++ toString p120.body.length))
    ∧ (serveRangeFromFullResponse p120 (mkRangeReq (some "bytes=120-"))).status = 416
    ∧ ((serveRangeFromFullResponse p120 (mkRangeReq (some "bytes=10-"))).status = 206
      ∧ (serveRangeFromFullResponse p120 (mkRangeReq (some "bytes=10-"))).body
          = p120.body.drop 10
      ∧ headerGet (serveRangeFromFullResponse p120
          (mkRangeReq (some "bytes=10-"))).headers "Content-Range"
          = some ("bytes 10-" ++ toString (p120.body.length - 1)
              ++ "/" ++ toString p120.body.length))
    ∧ (serveRangeFromFullResponse p120 (mkRangeReq (some "bytes=30-49"))).body
        = (p120.body.drop 30).take
            ((min ((49 : Nat) : Int) ((p120.body.length : Int) - 1)).toNat + 1 - 30) :=
  ⟨(c3_range_correctness p120).1 (mkRangeReq (some "bytes=0-99")) rfl (by decide),
   (c3_range_correctness p120).2.1 (mkRangeReq (some "bytes=120-")) "bytes=120-"
     120 none rfl (by decide) (by decide),
   (c3_range_correctness p120).2.2.1 (mkRangeReq (some "bytes=10-")) rfl (by decide),
   ((c3_range_correctness p120).2.2.2 (mkRangeReq (some "bytes=30-49")) "bytes=30-49"
     30 49 rfl (by decide) (by decide) (by decide)).2.2.1⟩

/-- The 5-byte payload of the C4 counterexample. -/
def c4P : Resp := { status := 200, headers := [], body := [1, 2, 3, 4, 5] }

/-- C4 (counterexample): an empty range header does not match
`bytes=<start>-[<end>]`, yet the slicer does not fail with 416: the
source's `if (!rangeHeader)` treats the empty string as falsy and returns
the full payload unchanged. -/
theorem c4_counterexample :
    parseRange "" = none
      ∧ serveRangeFromFullResponse c4P (mkRangeReq (some "")) = c4P
      ∧ (serveRangeFromFullResponse c4P (mkRangeReq (some ""))).status ≠ 416 := by
  decide

/-- C4 (amended): error handling of the slicer.  An absent range header
— and likewise an empty one, which the code's falsy check treats as
absent — returns the stored payload unchanged; a nonempty header that
does not parse as `bytes=<start>-[<end>]` fails with 416 and no body (and
no headers); a parseable but unsatisfiable range (start ≥ size, or start
beyond the effective end) fails with 416 carrying a
`Content-Range: bytes */size` header describing the total size. -/
theorem c4_error_handling (p : Resp) :
    (∀ (req : Request) (hdr : String), req.range = some hdr → hdr ≠ "" →
        parseRange hdr = none →
        serveRangeFromFullResponse p req
          = { status := 416, headers := [], body := [] })
    ∧ (∀ (req : Request) (hdr : String) (s : Nat) (e : Option Nat),
        req.range = some hdr → parseRange hdr = some (s, e) →
        (p.body.length ≤ s ∨ realEndOf p.body.length e < (s : Int)) →
        serveRangeFromFullResponse p req
          = { status := 416
              headers := [("Content-Range", "bytes */" ++ toString p.body.length)]
              body := [] })
    ∧ (∀ req : Request, req.range = none →
        serveRangeFromFullResponse p req = p)
    ∧ (∀ req : Request, req.range = some "" →
        serveRangeFromFullResponse p req = p) := by
  refine ⟨?_, ?_, ?_, ?_⟩
  · intro req hdr hr hne hp
    unfold serveRangeFromFullResponse
    simp only [hr]
    rw [if_neg hne]
    simp only [hp]
  · intro req hdr s e hr hp h
    exact serveRange_unsat p req hdr s e hr hp h
  · intro req hr
    unfold serveRangeFromFullResponse
    rw [hr]
  · intro req hr
    unfold serveRangeFromFullResponse
    rw [hr]
    rfl

/-- C4 (witness): the cases evaluated on a concrete 5-byte payload: a
malformed nonempty header, a start past the end, an absent range header,
and an empty range header. -/
theorem c4_error_handling_witness :
    serveRangeFromFullResponse
        { status := 200, headers := [], body := [1, 2, 3, 4, 5] }
        (mkRangeReq (some "units=0-99"))
      = { status := 416, headers := [], body := [] }
    ∧ serveRangeFromFullResponse
        { status := 200, headers := [], body := [1, 2, 3, 4, 5] }
        (mkRangeReq (some "bytes=9-"))
      = { status := 416
          headers := [("Content-Range", "bytes */" ++ toString
            (Resp.body { status := 200, headers := [], body := [1, 2, 3, 4, 5] }).length)]
          body := [] }
    ∧ serveRangeFromFullResponse
        { status := 200, headers := [], body := [1, 2, 3, 4, 5] }
        (mkRangeReq none)
      = { status := 200, headers := [], body := [1, 2, 3, 4, 5] }
    ∧ serveRangeFromFullResponse
        { status := 200, headers := [], body := [1, 2, 3, 4, 5] }
        (mkRangeReq (some ""))
      = { status := 200, headers := [], body := [1, 2, 3, 4, 5] } :=
  ⟨(c4_error_handling _).1 (mkRangeReq (some "units=0-99")) "units=0-99" rfl
     (by decide) (by decide),
   (c4_error_handling _).2.1 (mkRangeReq (some "bytes=9-")) "bytes=9-" 9 none rfl
     (by decide) (by decide),
   (c4_error_handling _).2.2.1 (mkRangeReq none) rfl,
   (c4_error_handling _).2.2.2 (mkRangeReq (some "")) rfl⟩

/-- Repeated invocations of the slicer on the same payload and request:
the list of the results of `n` successive calls. -/
def sliceRuns (p : Resp) (req : Request) : Nat → List Resp
  | 0 => []
  | n + 1 => serveRangeFromFullResponse p req :: sliceRuns p req n

/-- C5: the slicer is deterministic and idempotent — any two of the
results of repeatedly slicing the same stored payload with the same range
(present, absent or unsatisfiable) agree on status, headers and body
bytes. -/
theorem c5_slicer_deterministic (p : Resp) (req : Request) (n : Nat)
    (a b : Resp) (ha : a ∈ sliceRuns p req n) (hb : b ∈ sliceRuns p req n) :
    a.status = b.status ∧ a.headers = b.headers ∧ a.body = b.body := by
  have key : ∀ (m : Nat) (x : Resp), x ∈ sliceRuns p req m →
      x = serveRangeFromFullResponse p req := by
    intro m
    induction m with
    | zero => intro x hx; cases hx
    | succ k ih =>
      intro x hx
      rcases List.mem_cons.mp hx with h | h
      · exact h
      · exact ih x h
  rw [key n a ha, key n b hb]
  exact ⟨rfl, rfl, rfl⟩

/-- The payload, request and expected slice used to witness C5. -/
def c5Payload : Resp := { status := 200, headers := [], body := [10, 20, 30] }

/-- The expected result of slicing `c5Payload` with `bytes=1-2`. -/
def c5Expected : Resp :=
  { status := 206
    headers := [("Content-Range", "bytes 1-2/3"), ("Accept-Ranges", "bytes"),
      ("Content-Length", "2"), ("Content-Type", "video/mp4")]
    body := [20, 30] }

/-- C5 (witness): two runs of the slicer on a concrete 3-byte payload with
range `bytes=1-2`; the first result, spelled out literally, agrees with
the second invocation. -/
theorem c5_slicer_deterministic_witness :
    c5Expected.status
        = (serveRangeFromFullResponse c5Payload (mkRangeReq (some "bytes=1-2"))).status
      ∧ c5Expected.headers
        = (serveRangeFromFullResponse c5Payload (mkRangeReq (some "bytes=1-2"))).headers
      ∧ c5Expected.body
        = (serveRangeFromFullResponse c5Payload (mkRangeReq (some "bytes=1-2"))).body :=
  c5_slicer_deterministic c5Payload (mkRangeReq (some "bytes=1-2")) 2
    c5Expected
    (serveRangeFromFullResponse c5Payload (mkRangeReq (some "bytes=1-2")))
    (by decide) (by decide)

/-! ## Eviction: `trimCache` (BlobCache) and `trimIDBStore` (RecordStore) -/

/-- Source `trimCache(cacheName, maxItems, excludeUrls)`: if over the cap,
delete the oldest non-excluded entries — the first
`keys.length - maxItems` elements of the insertion-ordered key list with
the excluded URLs filtered out — stopping early when the non-excluded
entries run out.  The cache is the insertion-ordered entry list; the JS
`Set` of excluded URLs is a list with membership. -/
def trimCache (cache : List (String × Resp)) (maxItems : Nat)
    (excludeUrls : List String) : List (String × Resp) :=
  if cache.length ≤ maxItems then cache
  else
    let nonExcluded :=
      (cache.map Prod.fst).filter (fun k => !(decide (k ∈ excludeUrls)))
    let toDelete := nonExcluded.take (cache.length - maxItems)
    cache.filter (fun e => !(decide (e.1 ∈ toDelete)))

/-- Modelled from the spec: "delete entries in insertion order skipping
any address present in exemptSet, stopping once excess deletions are
satisfied or no more non-exempt entries remain" — a direct transcription
used as the reference for the refinement theorem. -/
def trimSpecModel (ex : List String) : List (String × Resp) → Nat → List (String × Resp)
  | c, 0 => c
  | [], _ + 1 => []
  | e :: rest, n + 1 =>
    if e.1 ∈ ex then e :: trimSpecModel ex rest (n + 1)
    else trimSpecModel ex rest n

/-- Core refinement: with distinct keys, deleting the first `n`
non-excluded keys (what the code's filter does) is the spec's
walk-in-insertion-order deletion. -/
theorem trimCache_core (ex : List String) :
    ∀ (cache : List (String × Resp)) (n : Nat), (cache.map Prod.fst).Nodup →
    cache.filter (fun e =>
        !(decide (e.1 ∈ ((cache.map Prod.fst).filter
            (fun k => !(decide (k ∈ ex)))).take n)))
      = trimSpecModel ex cache n := by
  intro cache
  induction cache with
  | nil =>
    intro n _
    cases n <;> rfl
  | cons e rest ih =>
    intro n hnd
    have hnotin : e.1 ∉ rest.map Prod.fst := (List.nodup_cons.mp hnd).1
    have hnd' : (rest.map Prod.fst).Nodup := (List.nodup_cons.mp hnd).2
    have hne : ∀ x ∈ rest, x.1 ≠ e.1 := by
      intro x hxr heq
      exact hnotin (heq ▸ List.mem_map_of_mem Prod.fst hxr)
    cases n with
    | zero =>
      simp [trimSpecModel]
    | succ m =>
      by_cases hx : e.1 ∈ ex
      · have hfe : (e.1 :: rest.map Prod.fst).filter (fun k => !(decide (k ∈ ex)))
            = (rest.map Prod.fst).filter (fun k => !(decide (k ∈ ex))) := by
          simp [hx]
        simp only [List.map_cons, hfe]
        rw [List.filter_cons]
        have hnm : e.1 ∉ ((rest.map Prod.fst).filter
            (fun k => !(decide (k ∈ ex)))).take (m + 1) := by
          intro hmem
          exact hnotin (List.mem_of_mem_filter (List.mem_of_mem_take hmem))
        rw [if_pos (by simp [hnm])]
        rw [ih (m + 1) hnd']
        simp [trimSpecModel, hx]
      · have hfe : (e.1 :: rest.map Prod.fst).filter (fun k => !(decide (k ∈ ex)))
            = e.1 :: (rest.map Prod.fst).filter (fun k => !(decide (k ∈ ex))) := by
          simp [hx]
        simp only [List.map_cons, hfe, List.take_succ_cons]
        rw [List.filter_cons]
        rw [if_neg (by simp)]
        have hcongr : rest.filter (fun x =>
            !(decide (x.1 ∈ e.1 :: ((rest.map Prod.fst).filter
              (fun k => !(decide (k ∈ ex)))).take m)))
            = rest.filter (fun x =>
            !(decide (x.1 ∈ ((rest.map Prod.fst).filter
              (fun k => !(decide (k ∈ ex)))).take m))) := by
          apply List.filter_congr
          intro x hxr
          have hiff : x.1 ∈ e.1 :: ((rest.map Prod.fst).filter
              (fun k => !(decide (k ∈ ex)))).take m ↔
              x.1 ∈ ((rest.map Prod.fst).filter
                (fun k => !(decide (k ∈ ex)))).take m := by
            constructor
            · intro h
              rcases List.mem_cons.mp h with h | h
              · exact absurd h (hne x hxr)
              · exact h
            · exact fun h => List.mem_cons_of_mem _ h
          rw [decide_eq_decide.mpr hiff]
        rw [hcongr, ih m hnd']
        simp [trimSpecModel, hx]

/-- C6: BlobCache trim.  With distinct keys (at most one entry per
address): when the count is within the cap, trim is a no-op; otherwise it
behaves exactly as the spec's walk — delete in insertion order, skipping
exempt addresses, stopping after `count − cap` deletions or when no
non-exempt entry remains (`trimSpecModel`).  Every exempt entry survives
(a pinned address remains present), and when every entry is exempt the
cache is left unchanged even though it stays over the cap. -/
theorem c6_trimCache_spec (cache : List (String × Resp)) (maxItems : Nat)
    (ex : List String) (hnd : (cache.map Prod.fst).Nodup) :
    (cache.length ≤ maxItems → trimCache cache maxItems ex = cache)
    ∧ (maxItems < cache.length →
        trimCache cache maxItems ex
          = trimSpecModel ex cache (cache.length - maxItems))
    ∧ (∀ e ∈ cache, e.1 ∈ ex → e ∈ trimCache cache maxItems ex)
    ∧ ((∀ e ∈ cache, e.1 ∈ ex) → trimCache cache maxItems ex = cache) := by
  refine ⟨?_, ?_, ?_, ?_⟩
  · intro h
    unfold trimCache
    rw [if_pos h]
  · intro h
    unfold trimCache
    rw [if_neg (by omega)]
    exact trimCache_core ex cache (cache.length - maxItems) hnd
  · intro e he hex
    unfold trimCache
    split
    · exact he
    · refine List.mem_filter.mpr ⟨he, ?_⟩
      simp only [Bool.not_eq_true', decide_eq_false_iff_not]
      intro hmem
      have : e.1 ∈ (cache.map Prod.fst).filter (fun k => !(decide (k ∈ ex))) :=
        List.mem_of_mem_take hmem
      have := List.of_mem_filter this
      simp at this
      exact this hex
  · intro hall
    unfold trimCache
    split
    · rfl
    · have hempty : (cache.map Prod.fst).filter (fun k => !(decide (k ∈ ex))) = [] := by
        rw [List.filter_eq_nil_iff]
        intro k hk
        rcases List.mem_map.mp hk with ⟨e, he, rfl⟩
        simp [hall e he]
      rw [hempty]
      simp

/-- The concrete pre-trim cache for the C6 witness: three entries, the
oldest (`/v/a.mp4`) pinned. -/
def c6Cache : List (String × Resp) :=
  [("/v/a.mp4", { status := 200, headers := [], body := [1] }),
   ("/old.css", { status := 200, headers := [], body := [2] }),
   ("/new.css", { status := 200, headers := [], body := [3] })]

/-- C6 (witness): trimming the three-entry cache to a cap of 2 with
`/v/a.mp4` pinned keeps the pinned entry and deletes the oldest unpinned
entry (`/old.css`), matching the spec walk; and with every entry exempt a
cap of 1 leaves the over-limit cache untouched. -/
theorem c6_trimCache_spec_witness :
    trimCache c6Cache 2 ["/v/a.mp4"]
        = trimSpecModel ["/v/a.mp4"] c6Cache (c6Cache.length - 2)
      ∧ ("/v/a.mp4", { status := 200, headers := [], body := [1] : Resp })
          ∈ trimCache c6Cache 2 ["/v/a.mp4"]
      ∧ trimCache c6Cache 3 ["/v/a.mp4"] = c6Cache
      ∧ trimCache c6Cache 1 ["/v/a.mp4", "/old.css", "/new.css"] = c6Cache :=
  ⟨(c6_trimCache_spec c6Cache 2 ["/v/a.mp4"] (by decide)).2.1 (by decide),
   (c6_trimCache_spec c6Cache 2 ["/v/a.mp4"] (by decide)).2.2.1 _ (by decide) (by decide),
   (c6_trimCache_spec c6Cache 3 ["/v/a.mp4"] (by decide)).1 (by decide),
   (c6_trimCache_spec c6Cache 1 ["/v/a.mp4", "/old.css", "/new.css"]
     (by decide)).2.2.2 (by decide)⟩

/-- A decoded JSON value, for the structured records stored in IDB.
Numeric payloads are modelled as integers. -/
inductive JsonVal where
  | null
  | boolean (b : Bool)
  | num (n : Int)
  | str (s : String)
  | arr (elems : List JsonVal)
  | obj (fields : List (String × JsonVal))

/-- A record of the IDB api store: `{ url, data, timestamp }` as written
by the API branch (`idbPut(API_STORE, { url, data, timestamp })`). -/
structure ApiRec where
  url : String
  data : JsonVal
  timestamp : Nat

/-- The comparator of `trimIDBStore`'s sort:
`(a, b) => (a.timestamp || 0) - (b.timestamp || 0)` — ascending timestamp
(the records always carry a timestamp, so the `|| 0` default is the
identity). -/
def tsLE (a b : ApiRec) : Prop := a.timestamp ≤ b.timestamp

instance : DecidableRel tsLE := fun a b => Nat.decLe a.timestamp b.timestamp

instance : IsTotal ApiRec tsLE := ⟨fun a b => Nat.le_total a.timestamp b.timestamp⟩

instance : IsTrans ApiRec tsLE := ⟨fun _ _ _ hab hbc => Nat.le_trans hab hbc⟩

/-- Source `trimIDBStore(storeName, maxEntries)`: read all records; if at
most `maxEntries`, return; otherwise sort ascending by timestamp (JS
`Array.prototype.sort` is stable, modelled by insertion sort) and delete
the oldest `count − maxEntries` records by url.  `delOk` records which of
the issued deletions succeed — the surrounding `try/catch` swallows any
failure, so the function always returns a well-defined store state. -/
def trimIDBStore (store : List ApiRec) (maxEntries : Nat)
    (delOk : String → Bool) : List ApiRec :=
  if store.length ≤ maxEntries then store
  else
    let sorted := List.insertionSort tsLE store
    let toDelete := sorted.take (store.length - maxEntries)
    store.filter (fun r => !(decide (r.url ∈ toDelete.map ApiRec.url) && delOk r.url))

/-- Counting members by a sub-collection of keys: in a duplicate-free url
list, the entries whose url lies in a duplicate-free subset `D` of the
urls number exactly `D.length`. -/
theorem countP_mem_eq_length (urls D : List String) (hnd : urls.Nodup)
    (hD : D.Nodup) (hsub : ∀ u ∈ D, u ∈ urls) :
    urls.countP (fun u => decide (u ∈ D)) = D.length := by
  have hperm : List.Perm (urls.filter (fun u => decide (u ∈ D))) D := by
    rw [List.perm_ext_iff_of_nodup (hnd.filter _) hD]
    intro a
    simp only [List.mem_filter, decide_eq_true_eq]
    constructor
    · exact fun h => h.2
    · exact fun h => ⟨hsub a h, h⟩
  rw [List.countP_eq_length_filter]
  exact hperm.length_eq

/-- Filtering by the negation of a predicate keeps
`length − (number of matches)` elements. -/
theorem length_filter_not {α : Type} (p : α → Bool) (l : List α) :
    (l.filter (fun a => !(p a))).length = l.length - (l.filter p).length := by
  induction l with
  | nil => rfl
  | cons x xs ih =>
    have hle := List.length_filter_le p xs
    by_cases h : p x
    · simp [h, ih]
    · simp [h, ih]
      omega

/-- C7: RecordStore trim.  With distinct record urls: a store within the
cap is untouched; for every failure oracle the result is a sublist of the
store (failures are swallowed, the operation still yields a well-defined
state and never deletes anything but the selected oldest records); when
all deletions succeed and the store is over the cap, exactly `maxEntries`
records remain and every surviving record's timestamp is ≥ every deleted
record's timestamp. -/
theorem c7_trimIDBStore_spec (store : List ApiRec) (maxEntries : Nat)
    (delOk : String → Bool) (hnd : (store.map ApiRec.url).Nodup) :
    (store.length ≤ maxEntries → trimIDBStore store maxEntries delOk = store)
    ∧ List.Sublist (trimIDBStore store maxEntries delOk) store
    ∧ ((∀ u, delOk u = true) → maxEntries < store.length →
        (trimIDBStore store maxEntries delOk).length = maxEntries)
    ∧ ((∀ u, delOk u = true) →
        ∀ a ∈ trimIDBStore store maxEntries delOk,
        ∀ b ∈ store, b ∉ trimIDBStore store maxEntries delOk →
        b.timestamp ≤ a.timestamp) := by
  have hperm : List.Perm (List.insertionSort tsLE store) store :=
    List.perm_insertionSort tsLE store
  have hsortnd : ((List.insertionSort tsLE store).map ApiRec.url).Nodup :=
    (hperm.map ApiRec.url).nodup_iff.mpr hnd
  refine ⟨?_, ?_, ?_, ?_⟩
  · intro h
    unfold trimIDBStore
    rw [if_pos h]
  · unfold trimIDBStore
    split
    · exact List.Sublist.refl store
    · exact List.filter_sublist store
  · intro hTrue hlt
    unfold trimIDBStore
    rw [if_neg (by omega)]
    have hcongr : store.filter (fun r =>
        !(decide (r.url ∈ ((List.insertionSort tsLE store).take
            (store.length - maxEntries)).map ApiRec.url) && delOk r.url))
        = store.filter (fun r =>
        !(decide (r.url ∈ ((List.insertionSort tsLE store).take
            (store.length - maxEntries)).map ApiRec.url))) := by
      apply List.filter_congr
      intro x _
      rw [hTrue x.url, Bool.and_true]
    rw [hcongr, length_filter_not]
    have hDlen : (((List.insertionSort tsLE store).take
        (store.length - maxEntries)).map ApiRec.url).length
        = store.length - maxEntries := by
      rw [List.length_map, List.length_take, List.length_insertionSort]
      omega
    have hfl : (store.filter (fun r =>
        decide (r.url ∈ ((List.insertionSort tsLE store).take
            (store.length - maxEntries)).map ApiRec.url))).length
        = store.length - maxEntries := by
      rw [← List.countP_eq_length_filter]
      have hmap := List.countP_map
        (fun u => decide (u ∈ ((List.insertionSort tsLE store).take
            (store.length - maxEntries)).map ApiRec.url)) ApiRec.url store
      simp only [Function.comp_def] at hmap
      rw [← hmap]
      rw [countP_mem_eq_length _ _ hnd ?_ ?_]
      · exact hDlen
      · rw [List.map_take]
        exact hsortnd.sublist (List.take_sublist _ _)
      · intro u hu
        rw [List.map_take] at hu
        have : u ∈ (List.insertionSort tsLE store).map ApiRec.url :=
          (List.take_sublist _ _).mem hu
        exact (hperm.map ApiRec.url).mem_iff.mp this
    rw [hfl]
    omega
  · intro hTrue a ha b hb hbnot
    unfold trimIDBStore at ha hbnot
    by_cases hcap : store.length ≤ maxEntries
    · rw [if_pos hcap] at hbnot
      exact absurd hb hbnot
    · rw [if_neg hcap] at ha hbnot
      have haf := List.mem_filter.mp ha
      have hau : a.url ∉ ((List.insertionSort tsLE store).take
          (store.length - maxEntries)).map ApiRec.url := by
        have := haf.2
        rw [hTrue a.url, Bool.and_true] at this
        simpa using this
      have hbu : b.url ∈ ((List.insertionSort tsLE store).take
          (store.length - maxEntries)).map ApiRec.url := by
        by_contra hbu
        apply hbnot
        refine List.mem_filter.mpr ⟨hb, ?_⟩
        rw [hTrue b.url, Bool.and_true]
        simpa using hbu
      rcases List.mem_map.mp hbu with ⟨c, hc, hcurl⟩
      have hcstore : c ∈ store :=
        hperm.mem_iff.mp (List.mem_of_mem_take hc)
      have hcb : c = b :=
        List.inj_on_of_nodup_map hnd hcstore hb hcurl
      have hbtake : b ∈ (List.insertionSort tsLE store).take
          (store.length - maxEntries) := hcb ▸ hc
      have hadrop : a ∈ (List.insertionSort tsLE store).drop
          (store.length - maxEntries) := by
        have hasort : a ∈ List.insertionSort tsLE store :=
          hperm.mem_iff.mpr haf.1
        rw [← List.take_append_drop (store.length - maxEntries)
          (List.insertionSort tsLE store)] at hasort
        rcases List.mem_append.mp hasort with h | h
        · exact absurd (List.mem_map_of_mem ApiRec.url h) hau
        · exact h
      have hsorted : List.Sorted tsLE (List.insertionSort tsLE store) :=
        List.sorted_insertionSort tsLE store
      exact hsorted.rel_of_mem_take_of_mem_drop hbtake hadrop

/-- Concrete records for the C7 witness. -/
def ra : ApiRec := { url := "/api/a", data := JsonVal.num 1, timestamp := 10 }

/-- Concrete records for the C7 witness. -/
def rb : ApiRec := { url := "/api/b", data := JsonVal.num 2, timestamp := 30 }

/-- Concrete records for the C7 witness. -/
def rc : ApiRec := { url := "/api/c", data := JsonVal.num 3, timestamp := 20 }

/-- A three-record store, insertion order ≠ timestamp order. -/
def store7 : List ApiRec := [rb, ra, rc]

/-- C7 (witness): a three-record store with cap 3 is untouched; with cap 2
the oldest record (`/api/a`, timestamp 10) is deleted, leaving 2 records,
and the deleted record's timestamp is ≤ a survivor's. -/
theorem c7_trimIDBStore_spec_witness :
    trimIDBStore store7 3 (fun _ => true) = store7
    ∧ (trimIDBStore store7 2 (fun _ => true)).length = 2
    ∧ ra.timestamp ≤ rc.timestamp := by
  have hnd : (store7.map ApiRec.url).Nodup := by decide
  have htrim : trimIDBStore store7 2 (fun _ => true) = [rb, rc] := rfl
  have hrc_mem : rc ∈ trimIDBStore store7 2 (fun _ => true) := by
    rw [htrim]
    exact List.mem_cons_of_mem rb (List.mem_cons_self rc [])
  have hra_mem : ra ∈ store7 :=
    List.mem_cons_of_mem rb (List.mem_cons_self ra [rc])
  have hnotm : ra ∉ ([rb, rc] : List ApiRec) := by
    intro h
    rcases List.mem_cons.mp h with h | h
    · exact absurd (congrArg ApiRec.url h) (by decide)
    · rcases List.mem_cons.mp h with h | h
      · exact absurd (congrArg ApiRec.url h) (by decide)
      · cases h
  have hra_not : ra ∉ trimIDBStore store7 2 (fun _ => true) := by
    rw [htrim]
    exact hnotm
  exact ⟨(c7_trimIDBStore_spec store7 3 (fun _ => true) hnd).1 (by decide),
    (c7_trimIDBStore_spec store7 2 (fun _ => true) hnd).2.2.1 (fun _ => rfl) (by decide),
    (c7_trimIDBStore_spec store7 2 (fun _ => true) hnd).2.2.2 (fun _ => rfl)
      rc hrc_mem ra hra_mem hra_not⟩

/-! ## CacheStorage / IDB primitives and the fetch-handler branches -/

/-- `cache.put(url, resp)`: the Cache API deletes any entry matching the
request, then appends, so a re-put moves the entry to the end of the
insertion order. -/
def cachePut (cache : List (String × Resp)) (url : String) (r : Resp) :
    List (String × Resp) :=
  (cache.filter (fun e => !(decide (e.1 = url)))) ++ [(url, r)]

/-- `cache.match(url)`: first entry stored under the address. -/
def cacheMatch (cache : List (String × Resp)) (url : String) : Option Resp :=
  (cache.find? (fun e => decide (e.1 = url))).map Prod.snd

/-- `idbPut(PIN_STORE, { url, pinned: true, timestamp })`: keyed put —
replace or append. -/
def pinPut (pins : List (String × Nat)) (url : String) (ts : Nat) :
    List (String × Nat) :=
  (pins.filter (fun e => !(decide (e.1 = url)))) ++ [(url, ts)]

/-- `idbGet(API_STORE, url)`. -/
def idbGetApi (api : List ApiRec) (url : String) : Option ApiRec :=
  api.find? (fun r => decide (r.url = url))

/-- UTF-equivalent byte view of a response body built from a string
(ASCII in all bodies the worker synthesizes). -/
def strBytes (s : String) : List Nat := s.data.map Char.toNat

/-- Bytes back to a string, to express deserialization of a body. -/
def bytesToStr (bs : List Nat) : String := ⟨bs.map Char.ofNat⟩

/-- The navigation branch's last-resort offline page markup. -/
def offlineHtml : String :=
  "<!doctype html><meta charset=\x27utf-8\x27><title>Offline</title><body><h1>Offline</h1><p>Please check your connection.</p></body>"

/-- `new Response(offlineHtml, { headers: { "Content-Type": "text/html" } })`
— JS defaults the status to 200. -/
def offlineResponse : Resp :=
  { status := 200, headers := [("Content-Type", "text/html")]
    body := strBytes offlineHtml }

/-- `new Response("", { status: 503 })`: the uniform failure sentinel. -/
def serviceUnavailable : Resp := { status := 503, headers := [], body := [] }

/-- The navigation branch (fetch handler case 1): on network success, put
the response in the cache (fire-and-forget, modelled as completed) and
return it; on network failure, fall back to the cached `./index.html`,
then `./`, then the synthesized offline page.  `netResult = none` models
`fetch(req)` throwing. -/
def navigationBranch (req : Request) (cache : List (String × Resp))
    (netResult : Option Resp) : Resp × List (String × Resp) :=
  match netResult with
  | some netResp => (netResp, cachePut cache req.url netResp)
  | none =>
    match (cacheMatch cache "./index.html").orElse (fun _ => cacheMatch cache "./") with
    | some cachedIndex => (cachedIndex, cache)
    | none => (offlineResponse, cache)

/-- C8: for a navigation request whose network fetch fails, the cached
root/index entry is returned when present (`./index.html` first, then
`./`); otherwise the synthesized offline HTML response with status 200 —
never the 503 sentinel — and the cache is not modified. -/
theorem c8_navigation_offline (req : Request) (cache : List (String × Resp))
    (netResult : Option Resp) (_hnav : isNavigationRequest req = true)
    (hfail : netResult = none) :
    (∀ c, cacheMatch cache "./index.html" = some c →
        navigationBranch req cache netResult = (c, cache))
    ∧ (∀ c, cacheMatch cache "./index.html" = none →
        cacheMatch cache "./" = some c →
        navigationBranch req cache netResult = (c, cache))
    ∧ (cacheMatch cache "./index.html" = none → cacheMatch cache "./" = none →
        navigationBranch req cache netResult = (offlineResponse, cache)
          ∧ offlineResponse.status = 200
          ∧ offlineResponse.status ≠ 503
          ∧ offlineResponse.body = strBytes offlineHtml) := by
  subst hfail
  refine ⟨?_, ?_, ?_⟩
  · intro c hidx
    unfold navigationBranch
    rw [hidx]
    rfl
  · intro c hidx hroot
    unfold navigationBranch
    rw [hidx, hroot]
    rfl
  · intro hidx hroot
    unfold navigationBranch
    rw [hidx, hroot]
    exact ⟨rfl, rfl, by decide, rfl⟩

/-- The cached index page used in the C8 witness. -/
def idxResp : Resp :=
  { status := 200, headers := [("Content-Type", "text/html")], body := [60, 104] }

/-- A concrete navigation request. -/
def navReq : Request :=
  { method := "GET", mode := "navigate", destination := "document"
    url := "https://example.com/page", pathname := "/page"
    origin := "https://example.com", accept := "text/html", range := none }

/-- C8 (witness): with the index cached, offline navigation returns the
cached index; with an empty cache it returns the synthesized 200 offline
page. -/
theorem c8_navigation_offline_witness :
    navigationBranch navReq [("./index.html", idxResp)] none
        = (idxResp, [("./index.html", idxResp)])
      ∧ navigationBranch navReq [] none = (offlineResponse, [])
      ∧ offlineResponse.status = 200 :=
  ⟨(c8_navigation_offline navReq [("./index.html", idxResp)] none
      (by decide) rfl).1 idxResp (by decide),
   ((c8_navigation_offline navReq [] none (by decide) rfl).2.2 rfl rfl).1,
   ((c8_navigation_offline navReq [] none (by decide) rfl).2.2 rfl rfl).2.1⟩

/-- A 206 network response to a navigation request. -/
def partial206 : Resp :=
  { status := 206, headers := [("Content-Range", "bytes 0-2/100")]
    body := [1, 2, 3] }

/-- C2 (counterexample): the navigation branch stores the network response
unconditionally (`cache.put(req, netResp.clone())` with no status check),
so a 206 network response to a navigation request is stored as an entry
with status 206 — the partial-never-cached invariant does not hold across
all BlobCache write sites. -/
theorem c2_counterexample :
    isNavigationRequest navReq = true
      ∧ ("https://example.com/page", partial206)
          ∈ (navigationBranch navReq [] (some partial206)).2
      ∧ partial206.status = 206 := by
  decide

/-- The mutable stores the media branch and the pin command touch: the
blob cache and the IDB pin store. -/
structure SWState where
  cache : List (String × Resp)
  pins : List (String × Nat)
deriving DecidableEq

/-- The media branch (fetch handler case 2), with the detached
`event.waitUntil` work modelled as completed.  `netResult` is the outcome
of the single `fetch(req)` the taken path performs (`none` = threw).
Cached: serve the range from the cached entry; the background refresh
re-puts and re-pins only on an ok 200.  Not cached: a 206 network
response is returned uncached; an ok 200 is cached, pinned, eviction runs
with the pinned set exempt, and the response is sliced when the request
had a truthy (present, nonempty) range header; any other status falls
through to the 503 sentinel;
a thrown fetch with nothing cached is also the 503 sentinel. -/
def mediaBranch (req : Request) (st : SWState) (netResult : Option Resp)
    (now : Nat) : Resp × SWState :=
  match cacheMatch st.cache req.url with
  | some cached =>
    let st2 :=
      match netResult with
      | some net =>
        if respOk net && decide (net.status = 200) then
          { cache := cachePut st.cache req.url net
            pins := pinPut st.pins req.url now }
        else st
      | none => st
    (serveRangeFromFullResponse cached req, st2)
  | none =>
    match netResult with
    | none => (serviceUnavailable, st)
    | some net =>
      if net.status = 206 then (net, st)
      else if respOk net && decide (net.status = 200) then
        let cache2 := cachePut st.cache req.url net
        let pins2 := pinPut st.pins req.url now
        let cache3 := trimCache cache2 200 (pins2.map Prod.fst)
        (if headerTruthy req.range then serveRangeFromFullResponse net req else net,
         { cache := cache3, pins := pins2 })
      else (serviceUnavailable, st)

/-- The `pin` message command: if no full copy is cached, fetch; cache the
result only when it is an ok 200 (a 206 is skipped); then write the pin
marker and trim the cache with all pinned URLs exempt. -/
def pinCommand (url : String) (st : SWState) (netResult : Option Resp)
    (now : Nat) : SWState :=
  let st1 :=
    match cacheMatch st.cache url with
    | some _ => st
    | none =>
      match netResult with
      | some net =>
        if respOk net && decide (net.status = 200) then
          { st with cache := cachePut st.cache url net }
        else st
      | none => st
  let pins2 := pinPut st1.pins url now
  let cache3 := trimCache st1.cache 200 (pins2.map Prod.fst)
  { cache := cache3, pins := pins2 }

/-- An entry of a `cachePut` result is an old entry or the put pair. -/
theorem mem_cachePut {cache : List (String × Resp)} {url : String} {r : Resp}
    {e : String × Resp} (h : e ∈ cachePut cache url r) :
    e ∈ cache ∨ e = (url, r) := by
  unfold cachePut at h
  rcases List.mem_append.mp h with h | h
  · exact Or.inl (List.mem_of_mem_filter h)
  · rcases List.mem_cons.mp h with h | h
    · exact Or.inr h
    · cases h

/-- Trimming only deletes: every surviving entry was present before. -/
theorem mem_trimCache {cache : List (String × Resp)} {m : Nat}
    {ex : List String} {e : String × Resp} (h : e ∈ trimCache cache m ex) :
    e ∈ cache := by
  unfold trimCache at h
  split at h
  · exact h
  · exact List.mem_of_mem_filter h

/-- Every cache entry after the media branch is an old entry or carries
status 200 exactly. -/
theorem mediaBranch_writes_200 (req : Request) (st : SWState)
    (netResult : Option Resp) (now : Nat) :
    ∀ e ∈ (mediaBranch req st netResult now).2.cache,
      e ∈ st.cache ∨ e.2.status = 200 := by
  intro e he
  unfold mediaBranch at he
  cases hc : cacheMatch st.cache req.url with
  | some cached =>
    simp only [hc] at he
    cases hn : netResult with
    | none =>
      simp only [hn] at he
      exact Or.inl he
    | some net =>
      simp only [hn] at he
      by_cases hok : (respOk net && decide (net.status = 200)) = true
      · rw [if_pos hok] at he
        have h200 : net.status = 200 :=
          of_decide_eq_true (Bool.and_elim_right hok)
        rcases mem_cachePut he with h | h
        · exact Or.inl h
        · exact Or.inr (by rw [h]; exact h200)
      · rw [if_neg hok] at he
        exact Or.inl he
  | none =>
    simp only [hc] at he
    cases hn : netResult with
    | none =>
      simp only [hn] at he
      exact Or.inl he
    | some net =>
      simp only [hn] at he
      by_cases h206 : net.status = 206
      · rw [if_pos h206] at he
        exact Or.inl he
      · rw [if_neg h206] at he
        by_cases hok : (respOk net && decide (net.status = 200)) = true
        · rw [if_pos hok] at he
          have h200 : net.status = 200 :=
            of_decide_eq_true (Bool.and_elim_right hok)
          rcases mem_cachePut (mem_trimCache he) with h | h
          · exact Or.inl h
          · exact Or.inr (by rw [h]; exact h200)
        · rw [if_neg hok] at he
          exact Or.inl he

/-- Every cache entry after the pin command is an old entry or carries
status 200 exactly. -/
theorem pinCommand_writes_200 (url : String) (st : SWState)
    (netResult : Option Resp) (now : Nat) :
    ∀ e ∈ (pinCommand url st netResult now).cache,
      e ∈ st.cache ∨ e.2.status = 200 := by
  intro e he
  unfold pinCommand at he
  have he2 := mem_trimCache he
  cases hc : cacheMatch st.cache url with
  | some cached =>
    simp only [hc] at he2
    exact Or.inl he2
  | none =>
    simp only [hc] at he2
    cases hn : netResult with
    | none =>
      simp only [hn] at he2
      exact Or.inl he2
    | some net =>
      simp only [hn] at he2
      by_cases hok : (respOk net && decide (net.status = 200)) = true
      · rw [if_pos hok] at he2
        have h200 : net.status = 200 :=
          of_decide_eq_true (Bool.and_elim_right hok)
        rcases mem_cachePut he2 with h | h
        · exact Or.inl h
        · exact Or.inr (by rw [h]; exact h200)
      · rw [if_neg hok] at he2
        exact Or.inl he2

/-- C2 (amended): the media branch (cached-refresh and network-miss
paths) and the pin command only ever add entries whose status is exactly
200 — a 206 network response is never stored by them — so if no cached
entry has status 206, none has after these operations.  (The navigation
put is unconditional and the static-asset/install puts gate only on
`response.ok`, so the invariant does not extend to those write sites; see
the counterexample.) -/
theorem c2_amended (req : Request) (st : SWState) (netResult : Option Resp)
    (now : Nat) (url : String)
    (hclean : ∀ e ∈ st.cache, e.2.status ≠ 206) :
    (∀ e ∈ (mediaBranch req st netResult now).2.cache, e.2.status ≠ 206)
    ∧ (∀ e ∈ (pinCommand url st netResult now).cache, e.2.status ≠ 206) := by
  constructor
  · intro e he
    rcases mediaBranch_writes_200 req st netResult now e he with h | h
    · exact hclean e h
    · rw [h]
      decide
  · intro e he
    rcases pinCommand_writes_200 url st netResult now e he with h | h
    · exact hclean e h
    · rw [h]
      decide

/-- A media request with no range header, for the witnesses. -/
def videoReq : Request :=
  { method := "GET", mode := "", destination := "video"
    url := "https://example.com/v/a.mp4", pathname := "/v/a.mp4"
    origin := "https://example.com", accept := "", range := none }

/-- A full ok-200 network response. -/
def ok200 : Resp := { status := 200, headers := [], body := [1, 2] }

/-- C2 (witness for the amended theorem): serving an uncached video from a
200 network response and pinning a URL both leave only non-206 entries in
an initially empty cache. -/
theorem c2_amended_witness :
    ("https://example.com/v/a.mp4", ok200)
        ∈ (mediaBranch videoReq { cache := [], pins := [] } (some ok200) 7).2.cache
      ∧ (("https://example.com/v/a.mp4", ok200) : String × Resp).2.status ≠ 206
      ∧ ("u", ok200) ∈ (pinCommand "u" { cache := [], pins := [] } (some ok200) 7).cache
      ∧ (("u", ok200) : String × Resp).2.status ≠ 206 :=
  ⟨by decide,
   (c2_amended videoReq { cache := [], pins := [] } (some ok200) 7 "u"
     (by decide)).1 ("https://example.com/v/a.mp4", ok200) (by decide),
   by decide,
   (c2_amended videoReq { cache := [], pins := [] } (some ok200) 7 "u"
     (by decide)).2 ("u", ok200) (by decide)⟩

/-- C10: a media request with no cached entry whose network fetch
resolves with a status that is neither 206 nor an ok 200 yields the empty
503 sentinel and leaves the state untouched: no BlobCache write, no pin
write, no eviction. -/
theorem c10_media_bad_status (req : Request) (st : SWState) (net : Resp)
    (now : Nat)
    (_hmedia : isVideoRequest req = true)
    (hmiss : cacheMatch st.cache req.url = none)
    (h206 : net.status ≠ 206)
    (hnotok : ¬(respOk net = true ∧ net.status = 200)) :
    mediaBranch req st (some net) now = (serviceUnavailable, st) := by
  unfold mediaBranch
  simp only [hmiss]
  rw [if_neg h206]
  rw [if_neg ?hok]
  case hok =>
    simp only [Bool.and_eq_true, decide_eq_true_eq]
    exact hnotok

/-- C10 (witness): a 404 network response for an uncached video gives the
503 sentinel and an unchanged (empty) state. -/
theorem c10_media_bad_status_witness :
    mediaBranch videoReq { cache := [], pins := [] }
        (some { status := 404, headers := [], body := [] }) 3
      = (serviceUnavailable, { cache := [], pins := [] }) :=
  c10_media_bad_status videoReq { cache := [], pins := [] }
    { status := 404, headers := [], body := [] } 3
    (by decide) rfl (by decide) (by decide)

/-! ## JSON re-encoding for the structured-data offline fallback -/

/-- `JSON.stringify` escaping of string contents (quote and backslash). -/
def jsonEscape (s : String) : String :=
  ⟨s.data.foldr (fun c acc =>
    if c = '"' then '\\' :: '"' :: acc
    else if c = '\\' then '\\' :: '\\' :: acc
    else c :: acc) []⟩

mutual

/-- `JSON.stringify` over the modelled values. -/
def jsonStringify : JsonVal → String
  | .null => "null"
  | .boolean true => "true"
  | .boolean false => "false"
  | .num n => toString n
  | .str s => "\"" ++ jsonEscape s ++ "\""
  | .arr xs => "[" ++ stringifyElems xs ++ "]"
  | .obj fs => "\x7b" ++ stringifyFields fs ++ "\x7d"

/-- Comma-joined serialization of array elements. -/
def stringifyElems : List JsonVal → String
  | [] => ""
  | [x] => jsonStringify x
  | x :: y :: xs => jsonStringify x ++ "," ++ stringifyElems (y :: xs)

/-- Comma-joined serialization of object fields. -/
def stringifyFields : List (String × JsonVal) → String
  | [] => ""
  | [(k, v)] => "\"" ++ jsonEscape k ++ "\":" ++ jsonStringify v
  | (k, v) :: f :: fs =>
    "\"" ++ jsonEscape k ++ "\":" ++ jsonStringify v ++ "," ++ stringifyFields (f :: fs)

end

/-- Skip JSON whitespace. -/
def skipWs : List Char → List Char
  | [] => []
  | c :: cs =>
    if c = ' ' || c = '\n' || c = '\t' || c = '\r' then skipWs cs else c :: cs

/-- Parse a JSON string-literal body after the opening quote (escaped
characters taken verbatim, matching `jsonEscape`). -/
def parseStrLit : List Char → Option (String × List Char)
  | [] => none
  | c :: cs =>
    if c = '"' then some ("", cs)
    else if c = '\\' then
      match cs with
      | [] => none
      | d :: ds => (parseStrLit ds).map (fun r => (⟨d :: r.1.data⟩, r.2))
    else (parseStrLit cs).map (fun r => (⟨c :: r.1.data⟩, r.2))

/-- Parse a JSON integer. -/
def parseNum : List Char → Option (JsonVal × List Char)
  | '-' :: rest =>
    let p := takeDigits rest
    if p.1.isEmpty then none
    else some (.num (-(digitsToNat p.1 : Int)), p.2)
  | cs =>
    let p := takeDigits cs
    if p.1.isEmpty then none
    else some (.num ((digitsToNat p.1 : Int)), p.2)

mutual

/-- Fuel-indexed JSON reader (the deserialization the spec's scenario
speaks of): one value. -/
def parseVal : Nat → List Char → Option (JsonVal × List Char)
  | 0, _ => none
  | fuel + 1, cs =>
    match skipWs cs with
    | [] => none
    | c :: rest =>
      if c = 'n' then
        if charsHasPrefix (c :: rest) "null".data then
          some (.null, rest.drop 3)
        else none
      else if c = 't' then
        if charsHasPrefix (c :: rest) "true".data then
          some (.boolean true, rest.drop 3)
        else none
      else if c = 'f' then
        if charsHasPrefix (c :: rest) "false".data then
          some (.boolean false, rest.drop 4)
        else none
      else if c = '"' then
        (parseStrLit rest).map (fun r => (.str r.1, r.2))
      else if c = '[' then
        match skipWs rest with
        | ']' :: more => some (.arr [], more)
        | more => (parseElems fuel more).map (fun r => (.arr r.1, r.2))
      else if c = '\x7b' then
        match skipWs rest with
        | '\x7d' :: more => some (.obj [], more)
        | more => (parseFields fuel more).map (fun r => (.obj r.1, r.2))
      else parseNum (c :: rest)

/-- Fuel-indexed reader: one-or-more array elements up to `]`. -/
def parseElems : Nat → List Char → Option (List JsonVal × List Char)
  | 0, _ => none
  | fuel + 1, cs =>
    match parseVal fuel cs with
    | none => none
    | some (v, rest) =>
      match skipWs rest with
      | ',' :: more => (parseElems fuel more).map (fun r => (v :: r.1, r.2))
      | ']' :: more => some ([v], more)
      | _ => none

/-- Fuel-indexed reader: one-or-more object fields up to the closing
brace. -/
def parseFields : Nat → List Char → Option (List (String × JsonVal) × List Char)
  | 0, _ => none
  | fuel + 1, cs =>
    match skipWs cs with
    | '"' :: rest =>
      match parseStrLit rest with
      | none => none
      | some (k, rest2) =>
        match skipWs rest2 with
        | ':' :: rest3 =>
          match parseVal fuel rest3 with
          | none => none
          | some (v, rest4) =>
            match skipWs rest4 with
            | ',' :: more =>
              (parseFields fuel more).map (fun r => ((k, v) :: r.1, r.2))
            | '\x7d' :: more => some ([(k, v)], more)
            | _ => none
        | _ => none
    | _ => none

end

/-- Deserialize a JSON text (fuel = input length + 1, ample since fuel is
consumed only when descending into a value). -/
def jsonParse (s : String) : Option JsonVal :=
  match parseVal (s.data.length + 1) s.data with
  | some (v, rest) => if (skipWs rest).isEmpty then some v else none
  | none => none

/-- The API branch's network-failure path (fetch handler case 4, catch
block): look up the StructuredRecord by url and synthesize
`new Response(JSON.stringify(cachedObj.data),
{ headers: { "Content-Type": "application/json" } })` (status defaults to
200); else fall back to the statically cached entry; else the 503
sentinel. -/
def apiBranchOnNetworkFailure (req : Request) (api : List ApiRec)
    (cache : List (String × Resp)) : Resp :=
  match idbGetApi api req.url with
  | some cachedObj =>
    { status := 200, headers := [("Content-Type", "application/json")]
      body := strBytes (jsonStringify cachedObj.data) }
  | none =>
    match cacheMatch cache req.url with
    | some staticCached => staticCached
    | none => serviceUnavailable

/-- C9: structured-data requests whose network fetch fails.  With a
stored StructuredRecord the response carries the record's payload
re-encoded as JSON (and for the record `\x7bid:1\x7d` the body
deserializes back to `\x7bid:1\x7d`); with no record but a statically
cached entry, that entry is returned; with neither, the empty 503
sentinel. -/
theorem c9_api_offline (req : Request) (api : List ApiRec)
    (cache : List (String × Resp)) :
    (∀ rec, idbGetApi api req.url = some rec →
        apiBranchOnNetworkFailure req api cache
          = { status := 200, headers := [("Content-Type", "application/json")]
              body := strBytes (jsonStringify rec.data) })
    ∧ (∀ rec, idbGetApi api req.url = some rec →
        rec.data = JsonVal.obj [("id", JsonVal.num 1)] →
        jsonParse (bytesToStr (apiBranchOnNetworkFailure req api cache).body)
          = some (JsonVal.obj [("id", JsonVal.num 1)]))
    ∧ (∀ c, idbGetApi api req.url = none → cacheMatch cache req.url = some c →
        apiBranchOnNetworkFailure req api cache = c)
    ∧ (idbGetApi api req.url = none → cacheMatch cache req.url = none →
        apiBranchOnNetworkFailure req api cache = serviceUnavailable) := by
  refine ⟨?_, ?_, ?_, ?_⟩
  · intro rec hrec
    unfold apiBranchOnNetworkFailure
    rw [hrec]
  · intro rec hrec hdata
    unfold apiBranchOnNetworkFailure
    rw [hrec]
    simp only [hdata]
    rfl
  · intro c hrec hcached
    unfold apiBranchOnNetworkFailure
    rw [hrec, hcached]
  · intro hrec hcached
    unfold apiBranchOnNetworkFailure
    rw [hrec, hcached]

/-- The stored StructuredRecord `\x7bid:1\x7d` for `/api/items`. -/
def itemsRec : ApiRec :=
  { url := "https://api.other.com/api/items"
    data := JsonVal.obj [("id", JsonVal.num 1)], timestamp := 4 }

/-- C9 (witness): with the `\x7bid:1\x7d` record stored, the offline API
response body deserializes to `\x7bid:1\x7d`; with no record the cached
static entry is returned; with neither, the 503 sentinel. -/
theorem c9_api_offline_witness :
    apiBranchOnNetworkFailure c1ApiReq [itemsRec] []
        = { status := 200, headers := [("Content-Type", "application/json")]
            body := strBytes (jsonStringify itemsRec.data) }
      ∧ jsonParse (bytesToStr (apiBranchOnNetworkFailure c1ApiReq [itemsRec] []).body)
          = some (JsonVal.obj [("id", JsonVal.num 1)])
      ∧ apiBranchOnNetworkFailure c1ApiReq []
          [("https://api.other.com/api/items", idxResp)] = idxResp
      ∧ apiBranchOnNetworkFailure c1ApiReq [] [] = serviceUnavailable :=
  ⟨(c9_api_offline c1ApiReq [itemsRec] []).1 itemsRec rfl,
   (c9_api_offline c1ApiReq [itemsRec] []).2.1 itemsRec rfl rfl,
   (c9_api_offline c1ApiReq []
     [("https://api.other.com/api/items", idxResp)]).2.2.1 idxResp rfl (by decide),
   (c9_api_offline c1ApiReq [] []).2.2.2 rfl rfl⟩
